import Mathlib

/-!
Verification of the stream-pipeline program (`src/pipeline.ts`).

The program processes numeric events through an ordered list of building
blocks: a recursive scalar-or-batch value (`PipelineElement`), stateless
filter/fold blocks, a stateful tumbling-window block, a rendering sink,
and an executor (`runBuildingBlocks`) that threads a value through the
blocks, short-circuiting on a `null` ("swallow") result and catching
per-block exceptions.

Modelling conventions:
* JavaScript numbers are modelled as `JSNum := Option ℚ`, where `none`
  stands for the non-numeric value `NaN` (the only way the program can
  produce one is the median of an empty flattened sequence, via
  out-of-bounds array reads that yield `undefined` and then
  `undefined + undefined = NaN`).  Arithmetic propagates `none`,
  and every comparison involving `none` is false, as for `NaN`.
* A block's closure state (the window's `eventBuffer`) is passed
  explicitly: a block maps a buffer and an element to a new buffer, a
  result (`Except` models a thrown exception, the inner `Option` models
  `PipelineElement | null`), and the lines it prints to the console.
* `console.log` output (both the sink's rendering and the executor's
  error reporting) is collected in an ordered list of strings.
-/

abbrev JSNum := Option ℚ

/-- JavaScript `+` on numbers: `NaN` propagates. -/
def jsAdd : JSNum → JSNum → JSNum
  | some a, some b => some (a + b)
  | _, _ => none

/-- JavaScript `>` on numbers: any comparison with `NaN` is false. -/
def jsGt : JSNum → JSNum → Bool
  | some a, some b => decide (b < a)
  | _, _ => false

/-- Comparator order used by `values.sort((x, y) => x - y)`: ascending
numeric order on genuine numbers.  A comparison involving `NaN` returns
`NaN`, which the sort treats as "equal"; for a stable sort this keeps
the relative order, which the `true` answer below reproduces.  (No list
containing `NaN` is ever sorted in the program's reachable states.) -/
def jsLe : JSNum → JSNum → Bool
  | some a, some b => decide (a ≤ b)
  | _, _ => true

/-- `PipelineElement`: `value: number | PipelineElement[]`. -/
inductive Container where
  | scalar (v : JSNum)
  | batch (items : List Container)

mutual

def Container.beq : Container → Container → Bool
  | .scalar a, .scalar b => a == b
  | .batch xs, .batch ys => Container.beqList xs ys
  | _, _ => false

def Container.beqList : List Container → List Container → Bool
  | [], [] => true
  | x :: xs, y :: ys => Container.beq x y && Container.beqList xs ys
  | _, _ => false

end

mutual

theorem Container.beq_iff : ∀ a b : Container, Container.beq a b = true ↔ a = b
  | .scalar a, .scalar b => by simp [Container.beq]
  | .scalar _, .batch _ => by simp [Container.beq]
  | .batch _, .scalar _ => by simp [Container.beq]
  | .batch xs, .batch ys => by
      simp only [Container.beq, Container.batch.injEq]
      exact Container.beqList_iff xs ys

theorem Container.beqList_iff : ∀ xs ys : List Container, Container.beqList xs ys = true ↔ xs = ys
  | [], [] => by simp [Container.beqList]
  | [], _ :: _ => by simp [Container.beqList]
  | _ :: _, [] => by simp [Container.beqList]
  | x :: xs, y :: ys => by
      simp only [Container.beqList, Bool.and_eq_true, List.cons.injEq]
      exact and_congr (Container.beq_iff x y) (Container.beqList_iff xs ys)

end

instance : DecidableEq Container := fun a b => decidable_of_iff _ (Container.beq_iff a b)

mutual

/-- `PipelineElement.getFlatValues`: pushes the flat values of each member
into an accumulating array. -/
def getFlatValues : Container → List JSNum
  | .scalar v => [v]
  | .batch items => flatValuesAcc [] items

def flatValuesAcc : List JSNum → List Container → List JSNum
  | acc, [] => acc
  | acc, c :: rest => flatValuesAcc (acc ++ getFlatValues c) rest

end

mutual

/-- The `Scalar` leaves of a container in left-to-right depth-first order,
written by direct recursion; the specification's description of `flatten`. -/
def dfsLeaves : Container → List JSNum
  | .scalar v => [v]
  | .batch items => dfsLeavesList items

def dfsLeavesList : List Container → List JSNum
  | [] => []
  | c :: rest => dfsLeaves c ++ dfsLeavesList rest

end

inductive ArrayLogicalBehavior where
  | AND
  | OR

/-- The type of a block invocation's outcome: the block's closure state
after the call, the returned `PipelineElement | null` or a thrown error
message, and the console lines the block printed. -/
structure BlockResult where
  buffer : List Container
  result : Except String (Option Container)
  printed : List String

abbrev BuildingBlock := List Container → Container → BlockResult

mutual

/-- `doesPassFilter` from `filter`: a scalar is tested directly; an array is
reduced with `&&` from `true` (policy `AND`) or with `||` from `false`
(policy `OR`), recursing with the same policy at every level. -/
def doesPassFilter (behavior : ArrayLogicalBehavior) (predicate : JSNum → Bool) :
    Container → Bool
  | .scalar v => predicate v
  | .batch items =>
    match behavior with
    | .AND => passReduce behavior predicate true items
    | .OR => passReduce behavior predicate false items

def passReduce (behavior : ArrayLogicalBehavior) (predicate : JSNum → Bool) :
    Bool → List Container → Bool
  | agg, [] => agg
  | agg, c :: rest =>
    passReduce behavior predicate
      (match behavior with
       | .AND => agg && doesPassFilter behavior predicate c
       | .OR => agg || doesPassFilter behavior predicate c) rest

end

/-- The `filter` building block: returns the element unchanged when
`doesPassFilter` holds, and `null` (swallow) otherwise.  Stateless. -/
def filter (predicate : JSNum → Bool) (arrayLogicalBehavior : ArrayLogicalBehavior) :
    BuildingBlock :=
  fun buffer element =>
    ⟨buffer, .ok (if doesPassFilter arrayLogicalBehavior predicate element then some element else none), []⟩

/-- The `fixedEventWindow` building block: resets a full buffer, appends the
element, and emits a `Batch` of the buffer exactly when it has just become
full; otherwise `null`. -/
def fixedEventWindow (size : ℕ) : BuildingBlock :=
  fun eventBuffer element =>
    let buf0 := if eventBuffer.length == size then [] else eventBuffer
    let buf1 := buf0 ++ [element]
    ⟨buf1, .ok (if buf1.length == size then some (.batch buf1) else none), []⟩

mutual

/-- `getSumOfValues` from `foldSum`: a scalar is its own sum; an array is
reduced with `+` from `0`, recursing into members. -/
def getSumOfValues : Container → JSNum
  | .scalar v => v
  | .batch items => sumReduce (some 0) items

def sumReduce : JSNum → List Container → JSNum
  | agg, [] => agg
  | agg, c :: rest => sumReduce (jsAdd agg (getSumOfValues c)) rest

end

/-- The `foldSum` building block.  Stateless; always returns a scalar. -/
def foldSum : BuildingBlock :=
  fun buffer element => ⟨buffer, .ok (some (.scalar (getSumOfValues element))), []⟩

/-- Insertion of one value into a list already sorted by `jsLe`. -/
def insertSorted (x : JSNum) : List JSNum → List JSNum
  | [] => [x]
  | y :: ys => if jsLe x y then x :: y :: ys else y :: insertSorted x ys

/-- `values.sort((x, y) => x - y)`: a stable ascending sort.  On a list of
genuine numbers, any stable comparison sort yields the same result, here
realised as insertion sort. -/
def jsSort : List JSNum → List JSNum
  | [] => []
  | x :: xs => insertSorted x (jsSort xs)

/-- `getMedianOfValues` from `foldMedian`: a scalar is its own median; for an
array it flattens, sorts, and picks `0.5 * (values[n/2] + values[n/2 - 1])`
for even `n` and `values[(n-1)/2]` for odd `n`.  An out-of-bounds read
yields `undefined`, making the final value `NaN` (`none`); for `n = 0` the
reads are `values[0]` and `values[-1]`, both out of bounds, and the Nat
subtraction's clamp of `-1` to `0` preserves that both reads miss. -/
def getMedianOfValues (element : Container) : JSNum :=
  match element with
  | .scalar v => v
  | .batch items =>
    let values := jsSort (getFlatValues (.batch items))
    let n := values.length
    if n % 2 == 0 then
      (jsAdd (values.getD (n / 2) none) (values.getD (n / 2 - 1) none)).map (fun s => s / 2)
    else
      values.getD ((n - 1) / 2) none

/-- Whether the array reads performed by `getMedianOfValues` are in bounds:
for even `n` the code reads indices `n/2` and `n/2 - 1`, for odd `n` it
reads `(n-1)/2` (a scalar input performs no array read).  For `n = 0` the
even-branch reads are `values[0]` and `values[-1]`, both out of bounds,
which the Nat encoding below also reports as out of bounds. -/
def medianIndicesInBounds (element : Container) : Bool :=
  match element with
  | .scalar _ => true
  | .batch items =>
    let n := (getFlatValues (.batch items)).length
    if n % 2 == 0 then
      decide (n / 2 < n) && decide (n / 2 - 1 < n)
    else
      decide ((n - 1) / 2 < n)

/-- The `foldMedian` building block.  Stateless; always returns a scalar. -/
def foldMedian : BuildingBlock :=
  fun buffer element => ⟨buffer, .ok (some (.scalar (getMedianOfValues element))), []⟩

/-- JavaScript's `number.toString()` for the values this pipeline renders:
`NaN` prints as `"NaN"`, an integral value prints without a decimal point.
(The decimal expansion of a non-integral value is not modelled further;
no verified statement depends on it.) -/
def jsNumToString : JSNum → String
  | none => "NaN"
  | some q => if q.den = 1 then toString q.num else toString q

mutual

/-- `getValueAsString` from `stdoutProcessor`: a scalar renders as its
numeric text, an array as a bracketed comma-separated list. -/
def getValueAsString : Container → String
  | .scalar v => jsNumToString v
  | .batch items => "[" ++ String.intercalate ", " (valueStrings items) ++ "]"

def valueStrings : List Container → List String
  | [] => []
  | c :: rest => getValueAsString c :: valueStrings rest

end

/-- The `stdoutProcessor` building block: prints the rendering of the
element and returns the element unchanged. -/
def stdoutProcessor : BuildingBlock :=
  fun buffer element => ⟨buffer, .ok (some element), [getValueAsString element]⟩

/-- `runBuildingBlocks`: folds the element through the blocks, pairing each
block with its closure state.  A `null` element skips every remaining
block (the `forEach` body returns early); a thrown error is caught, its
message logged, and the run continues with the element held before the
failing call.  Returns the final element, the blocks with their updated
states, and the console output in order. -/
def runBuildingBlocks :
    Option Container → List (BuildingBlock × List Container) →
    Option Container × List (BuildingBlock × List Container) × List String
  | element, [] => (element, [], [])
  | none, p :: rest =>
    ((runBuildingBlocks none rest).1,
     p :: (runBuildingBlocks none rest).2.1,
     (runBuildingBlocks none rest).2.2)
  | some element, (block, buffer) :: rest =>
    match (block buffer element).result with
    | .ok out =>
      ((runBuildingBlocks out rest).1,
       (block, (block buffer element).buffer) :: (runBuildingBlocks out rest).2.1,
       (block buffer element).printed ++ (runBuildingBlocks out rest).2.2)
    | .error msg =>
      ((runBuildingBlocks (some element) rest).1,
       (block, (block buffer element).buffer) :: (runBuildingBlocks (some element) rest).2.1,
       (block buffer element).printed ++ msg :: (runBuildingBlocks (some element) rest).2.2)

/-- The source loop of `stdinSource` after numeric parsing: feeds each
event as a fresh `Scalar` through the pipeline, threading the blocks'
states across events and concatenating the console output. -/
def processEvents :
    List (BuildingBlock × List Container) → List JSNum →
    List (BuildingBlock × List Container) × List String
  | pipeline, [] => (pipeline, [])
  | pipeline, v :: rest =>
    ((processEvents (runBuildingBlocks (some (.scalar v)) pipeline).2.1 rest).1,
     (runBuildingBlocks (some (.scalar v)) pipeline).2.2 ++
       (processEvents (runBuildingBlocks (some (.scalar v)) pipeline).2.1 rest).2)

/-- The predicate `(i) => i > 0` of the configured filter. -/
def positivePredicate : JSNum → Bool := fun i => jsGt i (some 0)

/-- The configured block list `functions` (the filter's policy argument is
its default, `AND`). -/
def functions : List BuildingBlock :=
  [filter positivePredicate .AND,
   fixedEventWindow 2,
   foldSum,
   fixedEventWindow 3,
   foldMedian,
   stdoutProcessor]

/-- The configured pipeline with every block in its initial (empty-buffer)
state. -/
def initialPipeline : List (BuildingBlock × List Container) :=
  functions.map (fun b => (b, []))

/-- The genuine numbers among a flat value list (for a container with no
`NaN` leaves, exactly its leaves). -/
def ratValues (c : Container) : List ℚ := (getFlatValues c).reduceOption

/-- All leaves of the container are genuine numbers (no `NaN`). -/
def allNumeric (c : Container) : Bool := (getFlatValues c).all Option.isSome

/-- Modelled from the spec: the standard median of a number sequence —
sort ascending, then take the average of the two middle elements for an
even count and the single middle element for an odd count (undefined for
an empty sequence). -/
def specMedian (l : List ℚ) : Option ℚ :=
  let s := l.insertionSort (· ≤ ·)
  let n := s.length
  if n = 0 then none
  else if n % 2 = 0 then some ((s.getD (n / 2 - 1) 0 + s.getD (n / 2) 0) / 2)
  else some (s.getD ((n - 1) / 2) 0)

/-- `l.foldl jsAdd 0`: the JavaScript sum of a list of values. -/
def jsSum (l : List JSNum) : JSNum := l.foldl jsAdd (some 0)

/-- A block that always throws (no source block throws on its own; this
exercises the executor's catch path for arbitrary-failure statements). -/
def throwingBlock : BuildingBlock :=
  fun buffer _ => ⟨buffer, .error "boom", []⟩

/-! ### Helper lemmas -/

theorem jsAdd_zero_left (v : JSNum) : jsAdd (some 0) v = v := by
  cases v <;> simp [jsAdd]

theorem jsAdd_zero_right (v : JSNum) : jsAdd v (some 0) = v := by
  cases v <;> simp [jsAdd]

theorem jsAdd_assoc (a b c : JSNum) : jsAdd (jsAdd a b) c = jsAdd a (jsAdd b c) := by
  cases a <;> cases b <;> cases c <;> simp [jsAdd, add_assoc]

theorem jsAdd_comm (a b : JSNum) : jsAdd a b = jsAdd b a := by
  cases a <;> cases b <;> simp [jsAdd, add_comm]

theorem foldl_jsAdd_acc (l : List JSNum) (acc : JSNum) :
    l.foldl jsAdd acc = jsAdd acc (jsSum l) := by
  induction l generalizing acc with
  | nil => simp [jsSum, jsAdd_zero_right]
  | cons x xs ih =>
    simp only [List.foldl_cons, jsSum] at *
    rw [ih (jsAdd acc x), ih (jsAdd (some 0) x), jsAdd_zero_left, jsAdd_assoc]

theorem jsSum_cons (x : JSNum) (l : List JSNum) : jsSum (x :: l) = jsAdd x (jsSum l) := by
  simp only [jsSum, List.foldl_cons, jsAdd_zero_left]
  exact foldl_jsAdd_acc l x

theorem jsSum_append (l₁ l₂ : List JSNum) :
    jsSum (l₁ ++ l₂) = jsAdd (jsSum l₁) (jsSum l₂) := by
  induction l₁ with
  | nil => simp [jsSum, jsAdd_zero_left]
  | cons x xs ih => simp only [List.cons_append, jsSum_cons, ih, jsAdd_assoc]

theorem jsSum_map_some (r : List ℚ) : jsSum (r.map some) = some r.sum := by
  induction r with
  | nil => simp [jsSum]
  | cons x xs ih => simp [jsSum_cons, ih, jsAdd]

mutual

theorem getFlatValues_eq_dfsLeaves : ∀ c : Container, getFlatValues c = dfsLeaves c
  | .scalar _ => rfl
  | .batch items => by
      rw [getFlatValues, dfsLeaves, flatValuesAcc_eq items []]
      simp

theorem flatValuesAcc_eq :
    ∀ (items : List Container) (acc : List JSNum),
      flatValuesAcc acc items = acc ++ dfsLeavesList items
  | [], acc => by simp [flatValuesAcc, dfsLeavesList]
  | c :: rest, acc => by
      rw [flatValuesAcc, flatValuesAcc_eq rest (acc ++ getFlatValues c),
        getFlatValues_eq_dfsLeaves c, dfsLeavesList]
      simp

end

theorem getFlatValues_batch (items : List Container) :
    getFlatValues (.batch items) = dfsLeavesList items := by
  rw [getFlatValues, flatValuesAcc_eq items []]
  simp

mutual

theorem getSumOfValues_eq_jsSum : ∀ c : Container, getSumOfValues c = jsSum (getFlatValues c)
  | .scalar v => by simp [getSumOfValues, getFlatValues, jsSum, jsAdd_zero_left]
  | .batch items => by
      rw [getSumOfValues, sumReduce_eq items (some 0), jsAdd_zero_left, getFlatValues_batch]

theorem sumReduce_eq :
    ∀ (items : List Container) (acc : JSNum),
      sumReduce acc items = jsAdd acc (jsSum (dfsLeavesList items))
  | [], acc => by simp [sumReduce, dfsLeavesList, jsSum, jsAdd_zero_right]
  | c :: rest, acc => by
      rw [sumReduce, sumReduce_eq rest (jsAdd acc (getSumOfValues c)), jsAdd_assoc,
        getSumOfValues_eq_jsSum c, getFlatValues_eq_dfsLeaves c, dfsLeavesList,
        jsSum_append]

end

mutual

theorem doesPassFilter_AND_eq (p : JSNum → Bool) :
    ∀ c : Container, doesPassFilter .AND p c = (dfsLeaves c).all p
  | .scalar v => by simp [doesPassFilter, dfsLeaves]
  | .batch items => by
      rw [doesPassFilter, passReduce_AND_eq p items true, dfsLeaves]
      simp

theorem passReduce_AND_eq (p : JSNum → Bool) :
    ∀ (items : List Container) (agg : Bool),
      passReduce .AND p agg items = (agg && (dfsLeavesList items).all p)
  | [], agg => by simp [passReduce, dfsLeavesList]
  | c :: rest, agg => by
      rw [passReduce, passReduce_AND_eq p rest (agg && doesPassFilter .AND p c),
        doesPassFilter_AND_eq p c, dfsLeavesList]
      simp [Bool.and_assoc]

end

mutual

theorem doesPassFilter_OR_eq (p : JSNum → Bool) :
    ∀ c : Container, doesPassFilter .OR p c = (dfsLeaves c).any p
  | .scalar v => by simp [doesPassFilter, dfsLeaves]
  | .batch items => by
      rw [doesPassFilter, passReduce_OR_eq p items false, dfsLeaves]
      simp

theorem passReduce_OR_eq (p : JSNum → Bool) :
    ∀ (items : List Container) (agg : Bool),
      passReduce .OR p agg items = (agg || (dfsLeavesList items).any p)
  | [], agg => by simp [passReduce, dfsLeavesList]
  | c :: rest, agg => by
      rw [passReduce, passReduce_OR_eq p rest (agg || doesPassFilter .OR p c),
        doesPassFilter_OR_eq p c, dfsLeavesList]
      simp [Bool.or_assoc]

end

theorem all_dfsLeavesList (p : JSNum → Bool) (items : List Container) :
    (dfsLeavesList items).all p = items.all (fun c => (dfsLeaves c).all p) := by
  induction items with
  | nil => simp [dfsLeavesList]
  | cons c rest ih => simp [dfsLeavesList, ih]

theorem any_dfsLeavesList (p : JSNum → Bool) (items : List Container) :
    (dfsLeavesList items).any p = items.any (fun c => (dfsLeaves c).any p) := by
  induction items with
  | nil => simp [dfsLeavesList]
  | cons c rest ih => simp [dfsLeavesList, ih]

theorem reduceOption_expand (l : List JSNum) (h : l.all Option.isSome = true) :
    l = l.reduceOption.map some := by
  induction l with
  | nil => simp
  | cons x xs ih =>
    cases x with
    | none => simp at h
    | some v =>
      simp only [List.all_cons, Bool.and_eq_true] at h
      simp only [List.reduceOption_cons_of_some, List.map_cons]
      rw [← ih h.2]

theorem insertSorted_map_some (x : ℚ) (l : List ℚ) :
    insertSorted (some x) (l.map some) = (List.orderedInsert (· ≤ ·) x l).map some := by
  induction l with
  | nil => simp [insertSorted, List.orderedInsert]
  | cons y ys ih =>
    simp only [List.map_cons, insertSorted, List.orderedInsert, jsLe]
    by_cases h : x ≤ y
    · simp [h]
    · simp [h, ih]

theorem jsSort_map_some (l : List ℚ) :
    jsSort (l.map some) = (l.insertionSort (· ≤ ·)).map some := by
  induction l with
  | nil => simp [jsSort]
  | cons x xs ih => simp [jsSort, List.insertionSort, ih, insertSorted_map_some]

theorem getD_map_some (l : List ℚ) (i : ℕ) (h : i < l.length) :
    (l.map some).getD i none = some (l.getD i 0) := by
  induction l generalizing i with
  | nil => simp at h
  | cons x xs ih =>
    cases i with
    | zero => simp
    | succ j =>
      simp only [List.length_cons, Nat.succ_lt_succ_iff] at h
      simp only [List.map_cons, List.getD_cons_succ]
      exact ih j h

theorem getMedianOfValues_batch_eq_spec (items : List Container)
    (h : allNumeric (.batch items) = true) :
    getMedianOfValues (.batch items) = specMedian (ratValues (.batch items)) := by
  have hl : getFlatValues (.batch items) = (ratValues (.batch items)).map some :=
    reduceOption_expand _ h
  set r := ratValues (.batch items) with hr
  set s := r.insertionSort (· ≤ ·) with hs
  have hsort : jsSort (getFlatValues (.batch items)) = s.map some := by
    rw [hl, jsSort_map_some]
  simp only [getMedianOfValues, specMedian, hsort, List.length_map, ← hs]
  rcases Nat.eq_zero_or_pos s.length with h0 | hpos
  · have hnil : s = [] := List.length_eq_zero.mp h0
    simp [hnil, jsAdd]
  · rw [if_neg (by omega : ¬ s.length = 0)]
    by_cases he : s.length % 2 = 0
    · have hi1 : s.length / 2 < s.length := Nat.div_lt_self hpos (by norm_num)
      have hi2 : s.length / 2 - 1 < s.length := lt_of_le_of_lt (Nat.sub_le _ _) hi1
      simp only [he, beq_self_eq_true, if_true, if_pos he,
        getD_map_some _ _ hi1, getD_map_some _ _ hi2]
      simp [jsAdd, add_comm]
    · have hi : (s.length - 1) / 2 < s.length :=
        lt_of_le_of_lt (Nat.div_le_self _ _) (by omega)
      have he' : (s.length % 2 == 0) = false := by simp [he]
      simp only [he', if_false, if_neg he, getD_map_some _ _ hi]
      simp

theorem medianIndicesInBounds_iff (c : Container) :
    medianIndicesInBounds c = true ↔ ((∃ v, c = .scalar v) ∨ getFlatValues c ≠ []) := by
  cases c with
  | scalar v => simp [medianIndicesInBounds]
  | batch items =>
    have hscal : (∃ v, Container.batch items = .scalar v) ↔ False := by simp
    have hne : (getFlatValues (.batch items) ≠ []) ↔
        (getFlatValues (.batch items)).length ≠ 0 := by
      simp [List.length_eq_zero]
    rw [hne]
    simp only [medianIndicesInBounds, hscal, false_or]
    generalize (getFlatValues (.batch items)).length = n
    constructor
    · intro hin
      split at hin
      · simp only [Bool.and_eq_true, decide_eq_true_eq] at hin
        omega
      · simp only [decide_eq_true_eq] at hin
        omega
    · intro hn
      split
      · simp only [Bool.and_eq_true, decide_eq_true_eq]
        omega
      · simp only [decide_eq_true_eq]
        omega

theorem runBuildingBlocks_none :
    ∀ ps : List (BuildingBlock × List Container),
      runBuildingBlocks none ps = (none, ps, [])
  | [] => rfl
  | p :: rest => by
      simp [runBuildingBlocks, runBuildingBlocks_none rest]

theorem runBuildingBlocks_append
    (ps qs : List (BuildingBlock × List Container)) (el : Option Container) :
    runBuildingBlocks el (ps ++ qs) =
      ((runBuildingBlocks (runBuildingBlocks el ps).1 qs).1,
       (runBuildingBlocks el ps).2.1 ++ (runBuildingBlocks (runBuildingBlocks el ps).1 qs).2.1,
       (runBuildingBlocks el ps).2.2 ++ (runBuildingBlocks (runBuildingBlocks el ps).1 qs).2.2) := by
  induction ps generalizing el with
  | nil => simp [runBuildingBlocks]
  | cons p rest ih =>
    cases el with
    | none =>
      simp only [List.cons_append]
      rw [runBuildingBlocks_none, runBuildingBlocks_none]
      simp [runBuildingBlocks_none]
    | some e =>
      obtain ⟨block, buffer⟩ := p
      cases hres : (block buffer e).result with
      | ok out =>
        simp only [List.cons_append, runBuildingBlocks, hres, List.append_eq, ih,
          List.append_assoc]
      | error msg =>
        simp only [List.cons_append, runBuildingBlocks, hres, List.append_eq, ih,
          List.append_assoc]

theorem specMedian_isSome (l : List ℚ) (h : l ≠ []) : (specMedian l).isSome = true := by
  have hlen : (l.insertionSort (· ≤ ·)).length = l.length := List.length_insertionSort _ l
  have hne : l.length ≠ 0 := by simpa [List.length_eq_zero] using h
  simp only [specMedian, hlen]
  rw [if_neg hne]
  split <;> simp

theorem getSumOfValues_numeric (c : Container) (h : allNumeric c = true) :
    getSumOfValues c = some ((ratValues c).sum) := by
  rw [getSumOfValues_eq_jsSum, reduceOption_expand _ h, jsSum_map_some, ratValues]

/-! ### Claim theorems -/

/-- C9: `getFlatValues` returns exactly the sequence of `Scalar` leaf values
of a left-to-right depth-first traversal of the container, and flattening
`Scalar(v)` gives the one-element sequence `[v]`. -/
theorem claim_flatten_dfs_order :
    (∀ c : Container, getFlatValues c = dfsLeaves c)
    ∧ (∀ v : JSNum, getFlatValues (.scalar v) = [v])
    ∧ (∀ items : List Container, getFlatValues (.batch items) = dfsLeavesList items) :=
  ⟨getFlatValues_eq_dfsLeaves, fun _ => rfl, getFlatValues_batch⟩

/-- C10: the filter's recursive pass test under the `ALL` policy holds iff
every element of the flattened leaf sequence satisfies the predicate, and
under the `ANY` policy iff at least one element does. -/
theorem claim_filter_pass_iff_flat_quantifier :
    (∀ (p : JSNum → Bool) (c : Container),
        doesPassFilter .AND p c = true ↔ ∀ v ∈ getFlatValues c, p v = true)
    ∧ (∀ (p : JSNum → Bool) (c : Container),
        doesPassFilter .OR p c = true ↔ ∃ v ∈ getFlatValues c, p v = true) := by
  constructor
  · intro p c
    rw [doesPassFilter_AND_eq p c, ← getFlatValues_eq_dfsLeaves c, List.all_eq_true]
  · intro p c
    rw [doesPassFilter_OR_eq p c, ← getFlatValues_eq_dfsLeaves c, List.any_eq_true]

/-- Witness for C10: instantiating the equivalence on a concrete batch. -/
theorem claim_filter_pass_iff_flat_quantifier_witness :
    ∀ v ∈ getFlatValues (.batch [.scalar (some 1), .scalar (some 2)]),
      positivePredicate v = true :=
  (claim_filter_pass_iff_flat_quantifier.1 positivePredicate
    (.batch [.scalar (some 1), .scalar (some 2)])).mp (by decide)

/-- C5: the filter aggregates recursive per-item results by conjunction with
base case pass under `ALL` (an empty batch passes) and by disjunction with
base case fail under `ANY` (an empty batch is swallowed); on
`Batch([Scalar(1), Scalar(-1)])` with `v > 0`, `ALL` swallows and `ANY`
passes. -/
theorem claim_filter_policy_behaviour :
    (∀ (p : JSNum → Bool) (buf : List Container),
        (filter p .AND buf (.batch [])).result = .ok (some (.batch [])))
    ∧ (∀ (p : JSNum → Bool) (buf : List Container),
        (filter p .OR buf (.batch [])).result = .ok none)
    ∧ (filter positivePredicate .AND []
        (.batch [.scalar (some 1), .scalar (some (-1))])).result = .ok none
    ∧ (filter positivePredicate .OR []
        (.batch [.scalar (some 1), .scalar (some (-1))])).result
        = .ok (some (.batch [.scalar (some 1), .scalar (some (-1))]))
    ∧ (∀ (p : JSNum → Bool) (items : List Container),
        doesPassFilter .AND p (.batch items) = items.all (doesPassFilter .AND p))
    ∧ (∀ (p : JSNum → Bool) (items : List Container),
        doesPassFilter .OR p (.batch items) = items.any (doesPassFilter .OR p)) := by
  refine ⟨?_, ?_, ?_, ?_, ?_, ?_⟩
  · intro p buf
    simp [filter, doesPassFilter, passReduce]
  · intro p buf
    simp [filter, doesPassFilter, passReduce]
  · rfl
  · rfl
  · intro p items
    rw [doesPassFilter_AND_eq, dfsLeaves, all_dfsLeavesList,
      funext (doesPassFilter_AND_eq p)]
  · intro p items
    rw [doesPassFilter_OR_eq, dfsLeaves, any_dfsLeavesList,
      funext (doesPassFilter_OR_eq p)]

/-- C7: the Sum fold returns the sum of all `Scalar` leaves at any nesting
depth (the fold of `+` over the flattened leaf sequence, a plain rational
sum when no leaf is `NaN`); a scalar input yields its own value, and the
nested example sums to 6. -/
theorem claim_sum_fully_recursive :
    (∀ c : Container, getSumOfValues c = jsSum (getFlatValues c))
    ∧ (∀ c : Container, allNumeric c = true → getSumOfValues c = some ((ratValues c).sum))
    ∧ (∀ v : JSNum, getSumOfValues (.scalar v) = v)
    ∧ getSumOfValues (.batch [.scalar (some 1), .batch [.scalar (some 2), .scalar (some 3)]])
        = some 6 := by
  refine ⟨getSumOfValues_eq_jsSum, getSumOfValues_numeric, fun _ => rfl, ?_⟩
  norm_num [getSumOfValues, sumReduce, jsAdd]

/-- Witness for C7: the numeric-sum clause at a concrete batch. -/
theorem claim_sum_fully_recursive_witness :
    getSumOfValues (.batch [.scalar (some 2), .scalar (some 3)])
      = some ((ratValues (.batch [.scalar (some 2), .scalar (some 3)])).sum) :=
  claim_sum_fully_recursive.2.1 (.batch [.scalar (some 2), .scalar (some 3)]) (by decide)

/-- C6: on any batch of genuine numbers the Median fold computes exactly the
standard median of the flattened sequence sorted ascending (average of the
two middle elements for an even count, middle element for an odd count;
both sides undefined exactly for an empty flattened sequence); a scalar
input is returned unchanged, and the two concrete examples give 2. -/
theorem claim_median_standard :
    (∀ items : List Container, allNumeric (.batch items) = true →
        getMedianOfValues (.batch items) = specMedian (ratValues (.batch items)))
    ∧ (∀ v : JSNum, getMedianOfValues (.scalar v) = v)
    ∧ getMedianOfValues (.batch [.scalar (some 1), .scalar (some 3)]) = some 2
    ∧ getMedianOfValues (.batch [.scalar (some 1), .scalar (some 2), .scalar (some 3)])
        = some 2 := by
  refine ⟨getMedianOfValues_batch_eq_spec, fun _ => rfl, ?_, ?_⟩
  · norm_num [getMedianOfValues, getFlatValues, flatValuesAcc, jsSort, insertSorted,
      jsLe, jsAdd]
  · norm_num [getMedianOfValues, getFlatValues, flatValuesAcc, jsSort, insertSorted,
      jsLe, jsAdd]

/-- Witness for C6: the median-vs-specification clause at a concrete batch. -/
theorem claim_median_standard_witness :
    getMedianOfValues (.batch [.scalar (some 5), .scalar (some 1)])
      = specMedian (ratValues (.batch [.scalar (some 5), .scalar (some 1)])) :=
  claim_median_standard.1 [.scalar (some 5), .scalar (some 1)] (by decide)

/-- C4: a size-2 window starting empty, fed scalars 1, 2, 3, 4, yields
swallow, `Batch([1,2])`, swallow, `Batch([3,4])`; in general an emission
occurs exactly when the post-append buffer length equals the size, an
emitted batch wraps the post-append buffer in insertion order, and a full
buffer is reset (to the new element alone) at the start of the next
application while a non-full buffer is appended to. -/
theorem claim_window_tumbling :
    ((fixedEventWindow 2 [] (.scalar (some 1))).result = .ok none
      ∧ (fixedEventWindow 2 [] (.scalar (some 1))).buffer = [.scalar (some 1)])
    ∧ ((fixedEventWindow 2 [.scalar (some 1)] (.scalar (some 2))).result
          = .ok (some (.batch [.scalar (some 1), .scalar (some 2)]))
      ∧ (fixedEventWindow 2 [.scalar (some 1)] (.scalar (some 2))).buffer
          = [.scalar (some 1), .scalar (some 2)])
    ∧ ((fixedEventWindow 2 [.scalar (some 1), .scalar (some 2)] (.scalar (some 3))).result
          = .ok none
      ∧ (fixedEventWindow 2 [.scalar (some 1), .scalar (some 2)] (.scalar (some 3))).buffer
          = [.scalar (some 3)])
    ∧ ((fixedEventWindow 2 [.scalar (some 3)] (.scalar (some 4))).result
          = .ok (some (.batch [.scalar (some 3), .scalar (some 4)]))
      ∧ (fixedEventWindow 2 [.scalar (some 3)] (.scalar (some 4))).buffer
          = [.scalar (some 3), .scalar (some 4)])
    ∧ (∀ (size : ℕ) (buf : List Container) (el : Container),
        (fixedEventWindow size buf el).result ≠ .ok none
          ↔ (fixedEventWindow size buf el).buffer.length = size)
    ∧ (∀ (size : ℕ) (buf : List Container) (el : Container) (b : Container),
        (fixedEventWindow size buf el).result = .ok (some b)
          → b = .batch ((fixedEventWindow size buf el).buffer))
    ∧ (∀ (size : ℕ) (buf : List Container) (el : Container),
        buf.length = size → (fixedEventWindow size buf el).buffer = [el])
    ∧ (∀ (size : ℕ) (buf : List Container) (el : Container),
        buf.length ≠ size → (fixedEventWindow size buf el).buffer = buf ++ [el]) := by
  refine ⟨⟨rfl, rfl⟩, ⟨rfl, rfl⟩, ⟨rfl, rfl⟩, ⟨rfl, rfl⟩, ?_, ?_, ?_, ?_⟩
  · intro size buf el
    simp only [fixedEventWindow]
    split <;> split <;> simp_all [beq_iff_eq]
  · intro size buf el b
    simp only [fixedEventWindow]
    intro hb
    split at hb <;> (try split at hb) <;> simp_all
  · intro size buf el h
    simp [fixedEventWindow, h]
  · intro size buf el h
    have : (buf.length == size) = false := by simpa using h
    simp [fixedEventWindow, this]

/-- Witness for C4: the reset clause applied to a concretely full buffer. -/
theorem claim_window_tumbling_witness :
    (fixedEventWindow 2 [.scalar (some 1), .scalar (some 2)] (.scalar (some 9))).buffer
      = [.scalar (some 9)] :=
  claim_window_tumbling.2.2.2.2.2.2.1 2 [.scalar (some 1), .scalar (some 2)]
    (.scalar (some 9)) rfl

/-- C3 counterexample: for the empty batch the flattened sequence is empty,
so the median's two array reads (`values[0]` and `values[-1]`) are both out
of bounds — the in-bounds assertion of the claim fails at this input. -/
theorem claim_folds_bounds_counterexample :
    medianIndicesInBounds (.batch []) = false := rfl

/-- C3 amended: both folds raise no failure and always return a `Scalar`
result; the median's array reads are in bounds exactly for a scalar input
or a nonempty flattened sequence; on genuine numbers the Sum always and
the Median (for nonempty flattening) produce a genuine number, while the
empty batch makes the median's reads miss and the returned scalar is the
non-numeric `NaN`. -/
theorem claim_folds_total_amended :
    (∀ (buf : List Container) (c : Container),
        ∃ v, (foldSum buf c).result = .ok (some (.scalar v)))
    ∧ (∀ (buf : List Container) (c : Container),
        ∃ v, (foldMedian buf c).result = .ok (some (.scalar v)))
    ∧ (∀ c : Container,
        medianIndicesInBounds c = true ↔ ((∃ v, c = .scalar v) ∨ getFlatValues c ≠ []))
    ∧ (∀ c : Container, allNumeric c = true → getFlatValues c ≠ []
        → (getMedianOfValues c).isSome = true)
    ∧ (∀ c : Container, allNumeric c = true → (getSumOfValues c).isSome = true)
    ∧ getMedianOfValues (.batch []) = none := by
  refine ⟨fun buf c => ⟨getSumOfValues c, rfl⟩, fun buf c => ⟨getMedianOfValues c, rfl⟩,
    medianIndicesInBounds_iff, ?_, ?_, rfl⟩
  · intro c hnum hne
    cases c with
    | scalar v =>
      cases v with
      | none => simp [allNumeric, getFlatValues] at hnum
      | some q => simp [getMedianOfValues]
    | batch items =>
      rw [getMedianOfValues_batch_eq_spec items hnum]
      refine specMedian_isSome _ ?_
      intro hr
      apply hne
      rw [reduceOption_expand _ hnum]
      simp only [ratValues] at hr
      simp [hr]
  · intro c hnum
    rw [getSumOfValues_numeric c hnum]
    rfl

/-- Witness for C3's amended statement: the median of a one-element batch of
genuine numbers is a genuine number. -/
theorem claim_folds_total_amended_witness :
    (getMedianOfValues (.batch [.scalar (some 4)])).isSome = true :=
  claim_folds_total_amended.2.2.2.1 (.batch [.scalar (some 4)]) (by decide)
    (by decide)

/-- C1: if the block after a successfully run front segment throws, the
executor catches the failure, logs its message, and runs the remaining
blocks on the container that was the failing block's input; the run always
completes with a definite result (so the next event is accepted normally). -/
theorem claim_executor_failure_isolation
    (pre post : List (BuildingBlock × List Container))
    (block : BuildingBlock) (buf : List Container)
    (el0 el : Container) (pre' : List (BuildingBlock × List Container))
    (log1 : List String) (msg : String)
    (hpre : runBuildingBlocks (some el0) pre = (some el, pre', log1))
    (hfail : (block buf el).result = .error msg) :
    runBuildingBlocks (some el0) (pre ++ (block, buf) :: post) =
      ((runBuildingBlocks (some el) post).1,
       pre' ++ (block, (block buf el).buffer) :: (runBuildingBlocks (some el) post).2.1,
       log1 ++ ((block buf el).printed ++ msg :: (runBuildingBlocks (some el) post).2.2)) := by
  rw [runBuildingBlocks_append, hpre]
  simp only [runBuildingBlocks, hfail]

/-- Witness for C1: a throwing block between two healthy stages; the sink
still runs on the value held before the failure, and the message "boom"
is logged before the sink's rendering. -/
theorem claim_executor_failure_isolation_witness :
    runBuildingBlocks (some (.scalar (some 1)))
        ([] ++ (throwingBlock, []) :: [(stdoutProcessor, [])]) =
      (some (.scalar (some 1)),
       [(throwingBlock, []), (stdoutProcessor, [])],
       ["boom", "1"]) := by
  rw [claim_executor_failure_isolation [] [(stdoutProcessor, [])] throwingBlock []
    (.scalar (some 1)) (.scalar (some 1)) [] [] "boom" rfl rfl]
  simp [runBuildingBlocks, stdoutProcessor, throwingBlock, getValueAsString,
    jsNumToString, show toString (1 : ℤ) = "1" from rfl]

/-- C8: if a block of the run returns swallow, the executor's final result is
`none` for that event, no later block contributes output or log lines, and
the buffers of all later blocks are left exactly as they were. -/
theorem claim_executor_swallow_short_circuit
    (pre post : List (BuildingBlock × List Container))
    (block : BuildingBlock) (buf : List Container)
    (el0 el : Container) (pre' : List (BuildingBlock × List Container))
    (log1 : List String)
    (hpre : runBuildingBlocks (some el0) pre = (some el, pre', log1))
    (hsw : (block buf el).result = .ok none) :
    runBuildingBlocks (some el0) (pre ++ (block, buf) :: post) =
      (none, pre' ++ (block, (block buf el).buffer) :: post,
       log1 ++ (block buf el).printed) := by
  rw [runBuildingBlocks_append, hpre]
  simp only [runBuildingBlocks, hsw, runBuildingBlocks_none]
  simp

/-- Witness for C8: the configured filter swallows `-1`, so the window after
it is never invoked and its (empty) buffer is untouched. -/
theorem claim_executor_swallow_short_circuit_witness :
    runBuildingBlocks (some (.scalar (some (-1))))
        ([] ++ (filter positivePredicate .AND, []) :: [(fixedEventWindow 2, [])]) =
      (none, [(filter positivePredicate .AND, []), (fixedEventWindow 2, [])], []) := by
  have h := claim_executor_swallow_short_circuit [] [(fixedEventWindow 2, [])]
    (filter positivePredicate .AND) [] (.scalar (some (-1))) (.scalar (some (-1)))
    [] [] rfl rfl
  simpa [filter] using h

/-- C2 counterexample: after the seven inputs `1, 2, 3, -1, 4, 5, 6` the six
positive events have already produced THREE size-2 sums (3, 7 and 11), the
size-3 window is already full, and the median 7 has already been rendered
— contrary to the claim's "two sums, window not yet full, no render". -/
theorem claim_scenario_counterexample :
    (processEvents initialPipeline
        [some 1, some 2, some 3, some (-1), some 4, some 5, some 6]).2 = ["7"]
    ∧ ((processEvents initialPipeline
        [some 1, some 2, some 3, some (-1), some 4, some 5, some 6]).1.map Prod.snd).getD 3 []
        = [.scalar (some 3), .scalar (some 7), .scalar (some 11)]
    ∧ ¬ ((processEvents initialPipeline
        [some 1, some 2, some 3, some (-1), some 4, some 5, some 6]).1.map Prod.snd).getD 3 []
        = [.scalar (some 3), .scalar (some 7)] := by
  refine ⟨?_, ?_, ?_⟩ <;>
    norm_num [processEvents, runBuildingBlocks, functions, initialPipeline, filter,
      fixedEventWindow, foldSum, foldMedian, stdoutProcessor, doesPassFilter, passReduce,
      positivePredicate, jsGt, jsAdd, getSumOfValues, sumReduce, getMedianOfValues,
      getFlatValues, flatValuesAcc, jsSort, insertSorted, jsLe, jsNumToString,
      getValueAsString, valueStrings] <;>
    decide

/-- C2 amended: the negative event is swallowed by the filter and perturbs no
state; the seven inputs produce three size-2 sums 3, 7, 11 which fill the
size-3 window at the sixth positive event, whereupon their median 7 is
emitted and rendered as the text `"7"`; extending the input with 7 and 8
produces one more sum, 15, which begins a fresh size-3 window, with no
further rendering. -/
theorem claim_scenario_amended :
    runBuildingBlocks (some (.scalar (some (-1)))) initialPipeline
        = (none, initialPipeline, [])
    ∧ (processEvents initialPipeline
        [some 1, some 2, some 3, some (-1), some 4, some 5, some 6]).2 = ["7"]
    ∧ ((processEvents initialPipeline
        [some 1, some 2, some 3, some (-1), some 4, some 5, some 6]).1.map Prod.snd)
        = [[], [.scalar (some 5), .scalar (some 6)], [],
           [.scalar (some 3), .scalar (some 7), .scalar (some 11)], [], []]
    ∧ (processEvents initialPipeline
        [some 1, some 2, some 3, some (-1), some 4, some 5, some 6, some 7, some 8]).2
        = ["7"]
    ∧ ((processEvents initialPipeline
        [some 1, some 2, some 3, some (-1), some 4, some 5, some 6, some 7, some 8]).1.map
          Prod.snd)
        = [[], [.scalar (some 7), .scalar (some 8)], [], [.scalar (some 15)], [], []] := by
  refine ⟨?_, ?_, ?_, ?_, ?_⟩ <;>
    norm_num [processEvents, runBuildingBlocks, functions, initialPipeline, filter,
      fixedEventWindow, foldSum, foldMedian, stdoutProcessor, doesPassFilter, passReduce,
      positivePredicate, jsGt, jsAdd, getSumOfValues, sumReduce, getMedianOfValues,
      getFlatValues, flatValuesAcc, jsSort, insertSorted, jsLe, jsNumToString,
      getValueAsString, valueStrings] <;>
    decide
